import Mathlib

/-!
Verification of the FoF liquidity-risk engine (src/app.py) against its
specification. Monetary quantities and flows are modelled as exact rationals;
pandas/numpy operations are embedded as Lean list functions.
-/

namespace LiquidityFoF

/-- One historical record of the uploaded sheet: columns `Resgates_Brutos`,
`Aportes_do_Dia`, `Patrimonio_Liquido` (src/app.py lines 46, 54-58). -/
structure FlowRecord where
  resgatesBrutos : ℚ
  aportesDoDia : ℚ
  patrimonioLiquido : ℚ

/-- Column `Fluxo_Liquido` (src/app.py line 54):
`df_hist["Aportes_do_Dia"] - df_hist["Resgates_Brutos"]`. -/
def Fluxo_Liquido (r : FlowRecord) : ℚ :=
  r.aportesDoDia - r.resgatesBrutos

/-- The lambda of src/app.py line 55 applied to a net-flow value:
`abs(x) if x < 0 else 0`. -/
def Fluxo_Risco (x : ℚ) : ℚ :=
  if x < 0 then |x| else 0

/-- Column `Fluxo_Risco` of the whole history (src/app.py line 55). -/
def fluxoRiscoSeries (hist : List FlowRecord) : List ℚ :=
  hist.map (fun r => Fluxo_Risco (Fluxo_Liquido r))

/-- The rolling-sum list built by the loop of src/app.py lines 77-80:
`for start in range(0, len(risco) - v + 1): rolling_sums.append(risco[start:start+v].sum())`.
`range(0, len - v + 1)` over the integers has `max 0 (len - v + 1)` elements,
which equals `len + 1 - v` in truncated natural subtraction. -/
def windowSums (risco : List ℚ) (v : ℕ) : List ℚ :=
  (List.range (risco.length + 1 - v)).map (fun start => ((risco.drop start).take v).sum)

/-- The data sorted ascending, as `np.percentile` sorts its argument. -/
def sortedAsc (xs : List ℚ) : List ℚ :=
  List.insertionSort (· ≤ ·) xs

/-- The fractional rank of the 99th percentile over `n` sorted data points:
`99 / 100 * (n - 1)`. -/
def rank99 (n : ℕ) : ℚ :=
  99 * ((n : ℚ) - 1) / 100

/-- The lower order-statistic index of the 99th percentile: `⌊rank⌋`
(clamped to `ℕ`; the rank is non-negative whenever `n ≥ 1`). -/
def idx99 (n : ℕ) : ℕ :=
  (Int.floor (rank99 n)).toNat

/-- Linear interpolation between the order statistics `s[k]` and `s[k+1]`
with fraction `f`; when `k + 1` falls outside the data, the value is `s[k]`
itself (which happens exactly at a whole-numbered maximal rank). -/
def interp (s : List ℚ) (k : ℕ) (f : ℚ) : ℚ :=
  match s[k + 1]? with
  | some b => s.getD k 0 + f * (b - s.getD k 0)
  | none => s.getD k 0

/-- `np.percentile(data, 99)` with numpy's default linear interpolation
between order statistics: with the data sorted ascending as `s` of length `n`,
the rank is `99 * (n - 1) / 100`; the result interpolates between
`s[⌊rank⌋]` and `s[⌊rank⌋ + 1]` with fraction `rank - ⌊rank⌋`
(src/app.py line 84). -/
def percentile99 (xs : List ℚ) : ℚ :=
  interp (sortedAsc xs) (idx99 (sortedAsc xs).length)
    (rank99 (sortedAsc xs).length - (idx99 (sortedAsc xs).length : ℚ))

/-- `demanda_estressada(historico, v)` (src/app.py lines 68-84).
The argument is the `Fluxo_Risco` column of the history (`none` when no file
was uploaded, i.e. `df_hist is None`). -/
def demanda_estressada (historico : Option (List ℚ)) (v : ℕ) : ℚ :=
  match historico with
  | none => 0
  | some risco =>
    if risco.length < v then 0
    else
      let rolling_sums := windowSums risco v
      if rolling_sums.length = 0 then 0
      else percentile99 rolling_sums

/-- `vertices = sorted(list({1, 5, 21, 42, 63, prazo_resgate_fof}))`
(src/app.py line 86). -/
def vertices (prazo_resgate_fof : ℕ) : List ℕ :=
  Finset.sort (· ≤ ·) ({1, 5, 21, 42, 63, prazo_resgate_fof} : Finset ℕ)

/-- One row of the portfolio form (src/app.py lines 100-106): notice period
`Prazo` in days (non-negative integer) and allocated value `Valor`. -/
structure Holding where
  nome : String
  prazo : ℕ
  valor : ℚ

/-- `oferta = df_carteira[df_carteira["Prazo"] <= v]["Valor"].sum()`
(src/app.py line 115). -/
def oferta (carteira : List Holding) (v : ℕ) : ℚ :=
  ((carteira.filter (fun h => h.prazo ≤ v)).map Holding.valor).sum

/-- `il_v = oferta / demanda_v if demanda_v > 0 else np.nan`
(src/app.py line 117); the NaN sentinel is modelled as `none`. -/
def il_v (oferta demanda : ℚ) : Option ℚ :=
  if demanda > 0 then some (oferta / demanda) else none

/-- `mismatch_val = df_carteira[df_carteira["Prazo"] > prazo_resgate_fof]["Valor"].sum()`
(src/app.py line 131). -/
def mismatch_val (carteira : List Holding) (prazo_resgate_fof : ℕ) : ℚ :=
  ((carteira.filter (fun h => prazo_resgate_fof < h.prazo)).map Holding.valor).sum

/-- `mismatch_perc = (mismatch_val / pl_total * 100) if pl_total > 0 else 0`
(src/app.py line 132). -/
def mismatch_perc (mismatchVal pl_total : ℚ) : ℚ :=
  if pl_total > 0 then mismatchVal / pl_total * 100 else 0

/-- Severity of the liquidity-index alert block (src/app.py lines 154-160):
`st.error`, `st.warning`, `st.success`. -/
inductive Severidade where
  | critical
  | warning
  | ok
  deriving DecidableEq, Repr

/-- The soft limit used by the warning branch of src/app.py line 157
(`elif il_fof < 1.25`). -/
def softLimit : ℚ := 125 / 100

/-- The liquidity-index alert of src/app.py lines 154-160: nothing is shown
when `il_fof` is NaN; otherwise `il < 1.0` is critical, `il < 1.25` is the
soft-limit warning, and anything else is OK. -/
def classifyIL (il_fof : Option ℚ) : Option Severidade :=
  match il_fof with
  | none => none
  | some x =>
    if x < 1 then some Severidade.critical
    else if x < softLimit then some Severidade.warning
    else some Severidade.ok

/-- The mismatch alert of src/app.py lines 162-163: `if mismatch_perc > 25`. -/
def mismatchAlert (mp : ℚ) : Bool :=
  25 < mp

/-- Both alerts of a run (src/app.py lines 154-163), computed side by side. -/
structure Alertas where
  ilAlert : Option Severidade
  mismatchWarn : Bool
  deriving DecidableEq, Repr

/-- The whole alert section (src/app.py lines 154-163). -/
def alertas (il_fof : Option ℚ) (mp : ℚ) : Alertas :=
  ⟨classifyIL il_fof, mismatchAlert mp⟩

/-- A risk-flow history is either absent or all its values are non-negative
(the invariant that `Fluxo_Risco` guarantees for the real column). -/
def riskSeriesOk : Option (List ℚ) → Prop
  | none => True
  | some xs => ∀ x ∈ xs, 0 ≤ x

/-! ### Helper lemmas -/

lemma mem_sortedAsc {xs : List ℚ} {x : ℚ} (hx : x ∈ sortedAsc xs) : x ∈ xs :=
  (List.mem_insertionSort _).1 hx

lemma length_sortedAsc (xs : List ℚ) : (sortedAsc xs).length = xs.length :=
  List.length_insertionSort _ xs

lemma rank99_nonneg {n : ℕ} (hn : 1 ≤ n) : 0 ≤ rank99 n := by
  have h1 : (1 : ℚ) ≤ (n : ℚ) := by exact_mod_cast hn
  unfold rank99
  apply div_nonneg _ (by norm_num)
  nlinarith

lemma idx99_cast {n : ℕ} (hn : 1 ≤ n) :
    (idx99 n : ℚ) = ((Int.floor (rank99 n) : ℤ) : ℚ) := by
  have h0 : (0 : ℤ) ≤ Int.floor (rank99 n) := Int.floor_nonneg.2 (rank99_nonneg hn)
  have h1 : ((idx99 n : ℕ) : ℤ) = Int.floor (rank99 n) := by
    unfold idx99
    exact Int.toNat_of_nonneg h0
  exact_mod_cast congrArg (fun z : ℤ => (z : ℚ)) h1

lemma idx99_le_rank99 {n : ℕ} (hn : 1 ≤ n) : (idx99 n : ℚ) ≤ rank99 n := by
  rw [idx99_cast hn]
  exact Int.floor_le _

lemma rank99_lt_idx99_add_one {n : ℕ} (hn : 1 ≤ n) : rank99 n < (idx99 n : ℚ) + 1 := by
  rw [idx99_cast hn]
  exact_mod_cast Int.lt_floor_add_one (rank99 n)

lemma getD_nonneg {s : List ℚ} (hs : ∀ x ∈ s, 0 ≤ x) (k : ℕ) : 0 ≤ s.getD k 0 := by
  by_cases hk : k < s.length
  · rw [List.getD_eq_getElem?_getD, List.getElem?_eq_getElem hk]
    exact hs _ (List.getElem_mem hk)
  · rw [List.getD_eq_getElem?_getD, List.getElem?_eq_none (by omega)]
    simp

lemma interp_nonneg {s : List ℚ} (hs : ∀ x ∈ s, 0 ≤ x) {k : ℕ} {f : ℚ}
    (hf0 : 0 ≤ f) (hf1 : f ≤ 1) : 0 ≤ interp s k f := by
  unfold interp
  rcases hb : s[k + 1]? with _ | b
  · show 0 ≤ s.getD k 0
    exact getD_nonneg hs k
  · show 0 ≤ s.getD k 0 + f * (b - s.getD k 0)
    have hbmem : b ∈ s := by
      obtain ⟨h, rfl⟩ := List.getElem?_eq_some_iff.1 hb
      exact List.getElem_mem h
    have hb0 : 0 ≤ b := hs _ hbmem
    have ha0 : 0 ≤ s.getD k 0 := getD_nonneg hs k
    nlinarith [mul_nonneg hf0 hb0, mul_nonneg (sub_nonneg.2 hf1) ha0]

lemma percentile99_nonneg {xs : List ℚ} (hne : xs ≠ []) (hnn : ∀ x ∈ xs, 0 ≤ x) :
    0 ≤ percentile99 xs := by
  have hs : ∀ x ∈ sortedAsc xs, 0 ≤ x := fun x hx => hnn x (mem_sortedAsc hx)
  have hn1 : 1 ≤ (sortedAsc xs).length := by
    rw [length_sortedAsc]
    exact List.length_pos.2 hne
  unfold percentile99
  exact interp_nonneg hs
    (by linarith [idx99_le_rank99 hn1])
    (by linarith [rank99_lt_idx99_add_one hn1])

lemma windowSums_length (xs : List ℚ) (v : ℕ) :
    (windowSums xs v).length = xs.length + 1 - v := by
  simp [windowSums]

lemma windowSums_nonneg {xs : List ℚ} (hnn : ∀ x ∈ xs, 0 ≤ x) (v : ℕ) :
    ∀ y ∈ windowSums xs v, 0 ≤ y := by
  intro y hy
  simp only [windowSums, List.mem_map, List.mem_range] at hy
  obtain ⟨start, _, rfl⟩ := hy
  refine List.sum_nonneg ?_
  intro x hx
  exact hnn x (List.mem_of_mem_drop (List.mem_of_mem_take hx))

lemma demanda_estressada_nonneg (h : Option (List ℚ)) (v : ℕ) (hok : riskSeriesOk h) :
    0 ≤ demanda_estressada h v := by
  match h with
  | none => simp [demanda_estressada]
  | some xs =>
    have hxs : ∀ x ∈ xs, 0 ≤ x := hok
    simp only [demanda_estressada]
    split
    · exact le_refl 0
    · split
      · exact le_refl 0
      · refine percentile99_nonneg ?_ (windowSums_nonneg hxs v)
        intro hnil
        simp_all

lemma sum_filter_eq_sum_ite (c : List Holding) (p : Holding → Bool) :
    ((c.filter p).map Holding.valor).sum =
      (c.map (fun h => if p h then h.valor else 0)).sum := by
  induction c with
  | nil => rfl
  | cons a t ih =>
    simp only [List.filter_cons, List.map_cons, List.sum_cons]
    split
    · simp_all
    · simp_all

/-! ### Claim theorems -/

/-- C1: for every risk-flow series of length `L` and every horizon `v` with
`1 ≤ v ≤ L`, the stressed demand equals the 99th percentile (linear
interpolation between order statistics) of the `L - v + 1` sums of the risk
flow over every contiguous window of length `v`, and the result is a
non-negative rational. -/
theorem C1_demanda_estressada_is_percentile (xs : List ℚ) (v : ℕ)
    (hnn : ∀ x ∈ xs, 0 ≤ x) (hv1 : 1 ≤ v) (hvL : v ≤ xs.length) :
    demanda_estressada (some xs) v = percentile99 (windowSums xs v) ∧
    (windowSums xs v).length = xs.length - v + 1 ∧
    0 ≤ demanda_estressada (some xs) v := by
  have hws := windowSums_length xs v
  have hlen : (windowSums xs v).length = xs.length - v + 1 := by omega
  have heq : demanda_estressada (some xs) v = percentile99 (windowSums xs v) := by
    simp only [demanda_estressada]
    rw [if_neg (by omega), if_neg (by omega)]
  have hne : windowSums xs v ≠ [] := List.length_pos.1 (by omega)
  exact ⟨heq, hlen, heq ▸ percentile99_nonneg hne (windowSums_nonneg hnn v)⟩

/-- C1 witness: the series `[3, 1, 2]` at horizon `2`. -/
theorem C1_demanda_estressada_is_percentile_witness :
    demanda_estressada (some [3, 1, 2]) 2 = percentile99 (windowSums [3, 1, 2] 2) ∧
    (windowSums [3, 1, 2] 2).length = 3 - 2 + 1 ∧
    0 ≤ demanda_estressada (some [3, 1, 2]) 2 :=
  C1_demanda_estressada_is_percentile [3, 1, 2] 2 (by norm_num) (by norm_num) (by norm_num)

/-- C3: with an absent series, or a series of length `L < v` (including
`L = 0`), the stressed demand at horizon `v` is the defined value `0`,
not an error. -/
theorem C3_demanda_estressada_insufficient_history (xs : List ℚ) (v : ℕ)
    (hv : xs.length < v) :
    demanda_estressada (some xs) v = 0 ∧ ∀ w : ℕ, demanda_estressada none w = 0 := by
  refine ⟨?_, fun w => rfl⟩
  simp only [demanda_estressada]
  rw [if_pos hv]

/-- C3 witness: the empty series at horizon `1`. -/
theorem C3_demanda_estressada_insufficient_history_witness :
    demanda_estressada (some ([] : List ℚ)) 1 = 0 ∧
    ∀ w : ℕ, demanda_estressada none w = 0 :=
  C3_demanda_estressada_insufficient_history [] 1 (by norm_num)

/-- C8: for every record, the net flow is `scheduledContributions −
grossRedemptions`, and the risk flow of the net flow is non-negative, equals
the magnitude of the net outflow exactly when the net flow is negative, and
is zero otherwise. -/
theorem C8_fluxo_risco_spec (r : FlowRecord) :
    Fluxo_Liquido r = r.aportesDoDia - r.resgatesBrutos ∧
    0 ≤ Fluxo_Risco (Fluxo_Liquido r) ∧
    (Fluxo_Liquido r < 0 → Fluxo_Risco (Fluxo_Liquido r) = -Fluxo_Liquido r) ∧
    (0 ≤ Fluxo_Liquido r → Fluxo_Risco (Fluxo_Liquido r) = 0) := by
  refine ⟨rfl, ?_, ?_, ?_⟩
  · unfold Fluxo_Risco
    split
    · exact abs_nonneg _
    · exact le_refl 0
  · intro h
    unfold Fluxo_Risco
    rw [if_pos h, abs_of_neg h]
  · intro h
    unfold Fluxo_Risco
    rw [if_neg (not_lt.2 h)]

/-- C8 witness: the third template row (gross redemptions 500000, no
contributions): the net flow is `-500000` and the risk flow is `500000`. -/
theorem C8_fluxo_risco_spec_witness :
    Fluxo_Risco (Fluxo_Liquido ⟨500000, 0, 9800000⟩) = 500000 := by
  have h := (C8_fluxo_risco_spec ⟨500000, 0, 9800000⟩).2.2.1 (by norm_num [Fluxo_Liquido])
  rw [h]
  norm_num [Fluxo_Liquido]

/-- C10: under the guard of `demanda_estressada` (series present, `v ≥ 1`,
`len(series) ≥ v`) the rolling-sum list has exactly `len(series) − v + 1 ≥ 1`
elements, so the empty-list fallback branch is unreachable and the percentile
is never taken over an empty collection. -/
theorem C10_rolling_sums_fallback_unreachable (xs : List ℚ) (v : ℕ)
    (hv1 : 1 ≤ v) (hvL : v ≤ xs.length) :
    (windowSums xs v).length = xs.length - v + 1 ∧
    0 < (windowSums xs v).length ∧ windowSums xs v ≠ [] := by
  have hws := windowSums_length xs v
  refine ⟨by omega, by omega, ?_⟩
  exact List.length_pos.1 (by omega)

/-- C2: the liquidity index at a vertex is the "not applicable" sentinel
(`none`, modelling `np.nan`) exactly when the stressed demand is `0`, and
otherwise equals `supply / demand`; the computation is total, so no division
error can be raised. -/
theorem C2_il_v_spec (h : Option (List ℚ)) (v : ℕ) (o : ℚ) (hok : riskSeriesOk h) :
    (il_v o (demanda_estressada h v) = none ↔ demanda_estressada h v = 0) ∧
    (demanda_estressada h v ≠ 0 →
      il_v o (demanda_estressada h v) = some (o / demanda_estressada h v)) := by
  have hd : 0 ≤ demanda_estressada h v := demanda_estressada_nonneg h v hok
  unfold il_v
  constructor
  · constructor
    · intro hnone
      by_contra h0
      rw [if_pos (lt_of_le_of_ne hd (Ne.symm h0))] at hnone
      exact Option.noConfusion hnone
    · intro h0
      rw [if_neg (by rw [h0]; exact lt_irrefl 0)]
  · intro h0
    rw [if_pos (lt_of_le_of_ne hd (Ne.symm h0))]

/-- C2 witness: series `[2]`, horizon `1`, supply `6`: demand is `2 ≠ 0` and
the index is `some (6 / 2)`. -/
theorem C2_il_v_spec_witness :
    (il_v 6 (demanda_estressada (some [2]) 1) = none ↔
      demanda_estressada (some [2]) 1 = 0) ∧
    (demanda_estressada (some [2]) 1 ≠ 0 →
      il_v 6 (demanda_estressada (some [2]) 1) =
        some (6 / demanda_estressada (some [2]) 1)) :=
  C2_il_v_spec (some [2]) 1 6 (by intro x hx; rw [List.mem_singleton] at hx; rw [hx]; norm_num)

/-- C4: the supply at a vertex is the sum of the holding values whose notice
period is at most the vertex, and for non-negative holding values it is
monotone non-decreasing in the vertex. -/
theorem C4_oferta_monotone (carteira : List Holding) (v1 v2 : ℕ)
    (hval : ∀ h ∈ carteira, 0 ≤ h.valor) (hv : v1 ≤ v2) :
    oferta carteira v1 =
      (carteira.map (fun h => if h.prazo ≤ v1 then h.valor else 0)).sum ∧
    oferta carteira v1 ≤ oferta carteira v2 := by
  have hsum : ∀ w : ℕ, oferta carteira w =
      (carteira.map (fun h => if h.prazo ≤ w then h.valor else 0)).sum := by
    intro w
    have := sum_filter_eq_sum_ite carteira (fun h => h.prazo ≤ w)
    simpa [oferta] using this
  refine ⟨hsum v1, ?_⟩
  rw [hsum v1, hsum v2]
  apply List.sum_le_sum
  intro h hm
  by_cases h1 : h.prazo ≤ v1
  · rw [if_pos h1, if_pos (h1.trans hv)]
  · rw [if_neg h1]
    by_cases h2 : h.prazo ≤ v2
    · rw [if_pos h2]
      exact hval h hm
    · rw [if_neg h2]

/-- C4 witness: the three-holding portfolio of the spec scenario at
vertices `5 ≤ 21`. -/
theorem C4_oferta_monotone_witness :
    oferta [⟨"A", 0, 3000000⟩, ⟨"B", 5, 3000000⟩, ⟨"C", 30, 4000000⟩] 5 =
      ([⟨"A", 0, 3000000⟩, ⟨"B", 5, 3000000⟩, ⟨"C", 30, 4000000⟩].map
        (fun h : Holding => if h.prazo ≤ 5 then h.valor else 0)).sum ∧
    oferta [⟨"A", 0, 3000000⟩, ⟨"B", 5, 3000000⟩, ⟨"C", 30, 4000000⟩] 5 ≤
      oferta [⟨"A", 0, 3000000⟩, ⟨"B", 5, 3000000⟩, ⟨"C", 30, 4000000⟩] 21 :=
  C4_oferta_monotone _ 5 21
    (by intro h hm; simp only [List.mem_cons, List.not_mem_nil, or_false] at hm
        rcases hm with rfl | rfl | rfl <;> norm_num)
    (by norm_num)

/-- C9: the evaluated vertices are the union of the base set
`{1, 5, 21, 42, 63}` with the configured target horizon, de-duplicated and
sorted ascending; the list has 5 or 6 elements, 6 exactly when the target
horizon is not in the base set. -/
theorem C9_vertices_spec (p : ℕ) :
    List.Sorted (· ≤ ·) (vertices p) ∧ (vertices p).Nodup ∧
    (∀ x : ℕ, x ∈ vertices p ↔ x ∈ ({1, 5, 21, 42, 63} : Finset ℕ) ∨ x = p) ∧
    ((vertices p).length = 5 ∨ (vertices p).length = 6) ∧
    ((vertices p).length = 6 ↔ p ∉ ({1, 5, 21, 42, 63} : Finset ℕ)) := by
  have hset : ({1, 5, 21, 42, 63, p} : Finset ℕ) = insert p {1, 5, 21, 42, 63} := by
    ext x
    simp only [Finset.mem_insert, Finset.mem_singleton]
    tauto
  have hcard5 : ({1, 5, 21, 42, 63} : Finset ℕ).card = 5 := by decide
  have hlen : (vertices p).length = (insert p ({1, 5, 21, 42, 63} : Finset ℕ)).card := by
    rw [vertices, Finset.length_sort, hset]
  refine ⟨Finset.sort_sorted _ _, Finset.sort_nodup _ _, ?_, ?_⟩
  · intro x
    rw [vertices, Finset.mem_sort, hset, Finset.mem_insert]
    tauto
  · by_cases hp : p ∈ ({1, 5, 21, 42, 63} : Finset ℕ)
    · have h5 : (vertices p).length = 5 := by
        rw [hlen, Finset.insert_eq_self.2 hp, hcard5]
      constructor
      · exact Or.inl h5
      · constructor
        · intro h6
          rw [h5] at h6
          exact absurd h6 (by norm_num)
        · intro hnp
          exact absurd hp hnp
    · have h6 : (vertices p).length = 6 := by
        rw [hlen, Finset.card_insert_of_not_mem hp, hcard5]
      exact ⟨Or.inr h6, fun _ => hp, fun _ => h6⟩

/-- C9 witness: with the default target horizon `7` the vertex list has six
elements and contains `7`. -/
theorem C9_vertices_spec_witness :
    (vertices 7).length = 6 ∧ 7 ∈ vertices 7 := by
  have h := C9_vertices_spec 7
  exact ⟨(h.2.2.2.2).2 (by decide), (h.2.2.1 7).2 (Or.inr rfl)⟩

/-- C10 witness: the series `[2, 7]` at horizon `1` has `2` windows. -/
theorem C10_rolling_sums_fallback_unreachable_witness :
    (windowSums [2, 7] 1).length = 2 - 1 + 1 ∧
    0 < (windowSums [2, 7] 1).length ∧ windowSums [2, 7] 1 ≠ [] :=
  C10_rolling_sums_fallback_unreachable [2, 7] 1 (by norm_num) (by norm_num)

/-- C5: the index classification is produced only when the liquidity index at
the target horizon is defined, and is three-level: `il < 1.0` is critical,
`1.0 ≤ il < softLimit` is the warning, `il ≥ softLimit` is OK; an index of
exactly `1.0` is never critical and one of exactly `softLimit` is OK; the
soft limit lies in the observed policy range `[1.2, 1.3]`. -/
theorem C5_classification_boundaries :
    classifyIL none = none ∧
    (6 / 5 : ℚ) ≤ softLimit ∧ softLimit ≤ (13 / 10 : ℚ) ∧
    (∀ x : ℚ,
      (classifyIL (some x) = some Severidade.critical ↔ x < 1) ∧
      (classifyIL (some x) = some Severidade.warning ↔ 1 ≤ x ∧ x < softLimit) ∧
      (classifyIL (some x) = some Severidade.ok ↔ softLimit ≤ x)) ∧
    classifyIL (some 1) = some Severidade.warning ∧
    classifyIL (some softLimit) = some Severidade.ok := by
  have hs1 : (1 : ℚ) < softLimit := by norm_num [softLimit]
  have hmain : ∀ x : ℚ,
      (classifyIL (some x) = some Severidade.critical ↔ x < 1) ∧
      (classifyIL (some x) = some Severidade.warning ↔ 1 ≤ x ∧ x < softLimit) ∧
      (classifyIL (some x) = some Severidade.ok ↔ softLimit ≤ x) := by
    intro x
    simp only [classifyIL]
    by_cases h1 : x < 1
    · rw [if_pos h1]
      refine ⟨⟨fun _ => h1, fun _ => rfl⟩, ?_, ?_⟩
      · exact ⟨fun hc => absurd hc (by decide), fun hx => absurd h1 (not_lt.2 hx.1)⟩
      · exact ⟨fun hc => absurd hc (by decide),
          fun hs => absurd h1 (not_lt.2 (by linarith))⟩
    · rw [if_neg h1]
      by_cases h2 : x < softLimit
      · rw [if_pos h2]
        refine ⟨?_, ⟨fun _ => ⟨not_lt.1 h1, h2⟩, fun _ => rfl⟩, ?_⟩
        · exact ⟨fun hc => absurd hc (by decide), fun hx => absurd hx h1⟩
        · exact ⟨fun hc => absurd hc (by decide), fun hs => absurd h2 (not_lt.2 hs)⟩
      · rw [if_neg h2]
        refine ⟨?_, ?_, ⟨fun _ => not_lt.1 h2, fun _ => rfl⟩⟩
        · exact ⟨fun hc => absurd hc (by decide), fun hx => absurd hx h1⟩
        · exact ⟨fun hc => absurd hc (by decide), fun hx => absurd hx.2 h2⟩
  refine ⟨rfl, by norm_num [softLimit], by norm_num [softLimit], hmain, ?_, ?_⟩
  · exact (hmain 1).2.1.2 ⟨le_refl 1, hs1⟩
  · exact (hmain softLimit).2.2.2 (le_refl softLimit)

/-- C5 witness: an index of `1/2` (the spec's CRITICAL scenario value) is
classified critical. -/
theorem C5_classification_boundaries_witness :
    classifyIL (some (1 / 2)) = some Severidade.critical :=
  ((C5_classification_boundaries.2.2.2.1 (1 / 2)).1).2 (by norm_num)

/-- C6: the mismatch amount is the sum of the holding values whose notice
period strictly exceeds the target horizon, and the mismatch percentage is
`amount / netAssetValue × 100` when the net asset value is positive and is
the defined value `0` when it is non-positive, never raising. -/
theorem C6_mismatch_spec (carteira : List Holding) (prazo_resgate_fof : ℕ) (pl_total : ℚ) :
    mismatch_val carteira prazo_resgate_fof =
      (carteira.map (fun h => if prazo_resgate_fof < h.prazo then h.valor else 0)).sum ∧
    (0 < pl_total →
      mismatch_perc (mismatch_val carteira prazo_resgate_fof) pl_total =
        mismatch_val carteira prazo_resgate_fof / pl_total * 100) ∧
    (pl_total ≤ 0 →
      mismatch_perc (mismatch_val carteira prazo_resgate_fof) pl_total = 0) := by
  refine ⟨?_, fun hpl => ?_, fun hpl => ?_⟩
  · have := sum_filter_eq_sum_ite carteira (fun h => prazo_resgate_fof < h.prazo)
    simpa [mismatch_val] using this
  · unfold mismatch_perc
    rw [if_pos hpl]
  · unfold mismatch_perc
    rw [if_neg (not_lt.2 hpl)]

/-- C6 witness: the spec scenario — net asset value 10,000,000 and holdings
`[(0d, 3M), (5d, 3M), (30d, 4M)]` at target horizon 7. -/
theorem C6_mismatch_spec_witness :
    mismatch_perc
        (mismatch_val [⟨"A", 0, 3000000⟩, ⟨"B", 5, 3000000⟩, ⟨"C", 30, 4000000⟩] 7)
        10000000 =
      mismatch_val [⟨"A", 0, 3000000⟩, ⟨"B", 5, 3000000⟩, ⟨"C", 30, 4000000⟩] 7 /
        10000000 * 100 :=
  (C6_mismatch_spec [⟨"A", 0, 3000000⟩, ⟨"B", 5, 3000000⟩, ⟨"C", 30, 4000000⟩] 7
    10000000).2.1 (by norm_num)

/-- C7: the mismatch warning fires exactly when the mismatch percentage
exceeds the fixed constant 25, for every value of the liquidity index
(including the undefined sentinel), and both alerts can fire on one run. -/
theorem C7_mismatch_alert_orthogonal (il_fof : Option ℚ) (mp : ℚ) :
    ((alertas il_fof mp).mismatchWarn = true ↔ 25 < mp) ∧
    (alertas il_fof mp).ilAlert = classifyIL il_fof ∧
    (alertas none 40).mismatchWarn = true ∧
    (alertas (some (1 / 2)) 40).mismatchWarn = true ∧
    (alertas (some (1 / 2)) 40).ilAlert = some Severidade.critical := by
  refine ⟨?_, rfl, ?_, ?_, ?_⟩
  · simp [alertas, mismatchAlert]
  · norm_num [alertas, mismatchAlert]
  · norm_num [alertas, mismatchAlert]
  · norm_num [alertas, classifyIL, softLimit]

/-- C7 witness: with no defined liquidity index and a mismatch percentage of
30, the mismatch warning still fires. -/
theorem C7_mismatch_alert_orthogonal_witness :
    (alertas none 30).mismatchWarn = true :=
  ((C7_mismatch_alert_orthogonal none 30).1).2 (by norm_num)

end LiquidityFoF
